import Mathlib

/-!
Verification of the Stupid-script interpreter pipeline: tokenizer, recursive
descent parser, environment and tree-walking evaluator.

The runtime model follows `src/runtime/value.rs`, `src/runtime/env.rs` and
`src/runtime/interpreter.rs`; the parser model follows
`src/backend/parser/parser.rs`; the AST follows `src/backend/ast`.  The token
data model (`Keyword`, `Operator`, `Symbol`, `TokenKind`) is the one the
parser and interpreter import and match on.  Runtime errors are carried in the
source as formatted message strings (`RuntimeError::Message`); they are
modelled here as the structured taxonomy the specification gives for those
exact messages (AlreadyConstant, ConstantAssignment, UndefinedVariable,
UndefinedIdentifier, TypeMismatch, DivisionByZero).

Machine integers: the source computes on `i64`.  `+`, `-`, `*` are embedded
with wraparound two's-complement semantics (`wrap64`), the fixed-width signed
64-bit behaviour the specification mandates (a debug-profile build would
instead abort on overflow).  Division is embedded exactly: division by zero is
the DivisionByZero runtime error, and the quotient overflow case
(`i64::MIN / -1`) is an unconditional arithmetic abort in the source in every
build profile; it is modelled by the distinct outcome `Res.trap`.
-/

namespace StupidScript

/-- Keywords of the token model (`crate::lexer::Keyword`). -/
inductive Keyword where
  | Let
  | Const
  | Print
  | Println
deriving DecidableEq

/-- Operators of the token model (`crate::lexer::Operator`), also stored in
`Expr.Binary` nodes. -/
inductive Operator where
  | Assignment
  | Plus
  | Minus
  | Multiply
  | Division
deriving DecidableEq

/-- Symbols of the token model (`crate::lexer::Symbol`). -/
inductive Symb where
  | SemiColon
  | LParen
  | RParen
  | DblQuote
deriving DecidableEq

/-- Token kinds (`crate::lexer::TokenKind`): keyword, identifier carrying its
text, operator, or symbol. -/
inductive TokenKind where
  | Keyword (k : Keyword)
  | Identifier (name : String)
  | Operator (o : Operator)
  | Symbol (s : Symb)
deriving DecidableEq

/-- A token with its source position (`crate::lexer::Token`). -/
structure Token where
  kind : TokenKind
  line : Nat
  column : Nat
deriving DecidableEq

/-- Expressions (`src/backend/ast/expressions.rs`). -/
inductive Expr where
  | Identifier (name : String)
  | StringLiteral (text : String)
  | IntLiteral (i : Int)
  | Binary (left : Expr) (op : Operator) (right : Expr)
deriving DecidableEq

/-- Statements (`src/backend/ast/statements.rs`). -/
inductive Stmt where
  | VarDeclaration (constant : Bool) (name : String) (value : Expr)
  | Print (newline : Bool) (expr : Expr)
deriving DecidableEq

/-- Runtime values (`src/runtime/value.rs`). -/
inductive Value where
  | Int (i : Int)
  | Str (s : String)
  | Bool (b : Bool)
deriving DecidableEq

/-- `Value::to_string_value` (`src/runtime/value.rs`), which also agrees with
the `Display` rendering used by `print`. -/
def toStringValue : Value → String
  | .Int i => toString i
  | .Str s => s
  | .Bool b => if b then "true" else "false"

/-- The smallest `i64` value. -/
def i64Min : Int := -(2 ^ 63)

/-- Reduce an integer into the `i64` range by two's-complement wraparound. -/
def wrap64 (z : Int) : Int := (z + 2 ^ 63) % 2 ^ 64 - 2 ^ 63

/-- Runtime error causes (`RuntimeError` in `src/runtime/interpreter.rs`,
carried there as the corresponding formatted message strings; the structured
taxonomy is the one the specification assigns to those messages). -/
inductive RuntimeError where
  | AlreadyConstant (name : String)
  | ConstantAssignment (name : String)
  | UndefinedVariable (name : String)
  | UndefinedIdentifier (name : String)
  | TypeMismatch (op : Operator)
  | DivisionByZero
  | UnexpectedAssignment
deriving DecidableEq

/-- Outcome of a runtime step: a normal result, a propagated `RuntimeError`,
or `trap`, the unconditional arithmetic-overflow abort that `i64` division
performs at `i64::MIN / -1` in the source. -/
inductive Res (α : Type) where
  | ok (a : α)
  | err (e : RuntimeError)
  | trap
deriving DecidableEq

/-- `Interpreter::apply_binary_op` (`src/runtime/interpreter.rs` lines
74-104). -/
def applyBinaryOp (left : Value) (op : Operator) (right : Value) : Res Value :=
  match op with
  | .Plus =>
    match left, right with
    | .Int a, .Int b => .ok (.Int (wrap64 (a + b)))
    | .Str a, .Str b => .ok (.Str (a ++ b))
    | a, b => .ok (.Str (toStringValue a ++ toStringValue b))
  | .Minus =>
    match left, right with
    | .Int a, .Int b => .ok (.Int (wrap64 (a - b)))
    | _, _ => .err (.TypeMismatch .Minus)
  | .Multiply =>
    match left, right with
    | .Int a, .Int b => .ok (.Int (wrap64 (a * b)))
    | _, _ => .err (.TypeMismatch .Multiply)
  | .Division =>
    match left, right with
    | .Int a, .Int b =>
      if b = 0 then .err .DivisionByZero
      else if a = i64Min ∧ b = -1 then .trap
      else .ok (.Int (a.tdiv b))
    | _, _ => .err (.TypeMismatch .Division)
  | .Assignment => .err .UnexpectedAssignment

/-- The environment (`src/runtime/env.rs`): a finite map from names to a value
and a constancy flag, modelled by its lookup function. -/
def Env : Type := String → Option (Value × Bool)

/-- The empty environment (`Environment::new`). -/
def emptyEnv : Env := fun _ => none

/-- `HashMap::insert` on the environment's store. -/
def updateEnv (env : Env) (name : String) (entry : Value × Bool) : Env :=
  fun m => if m = name then some entry else env m

/-- `Environment::define` (`src/runtime/env.rs` lines 18-26). -/
def defineVar (env : Env) (name : String) (value : Value) (c : Bool) :
    Except RuntimeError Env :=
  match env name with
  | some (_, true) => .error (.AlreadyConstant name)
  | _ => .ok (updateEnv env name (value, c))

/-- `Environment::assign` (`src/runtime/env.rs` lines 29-39). -/
def assignVar (env : Env) (name : String) (value : Value) :
    Except RuntimeError Env :=
  match env name with
  | none => .error (.UndefinedVariable name)
  | some (_, true) => .error (.ConstantAssignment name)
  | some (_, false) => .ok (updateEnv env name (value, false))

/-- `Environment::get` (`src/runtime/env.rs` lines 42-44). -/
def getVar (env : Env) (name : String) : Option Value :=
  (env name).map (fun p => p.1)

/-- Interpreter state: the environment plus the text emitted on standard
output so far. -/
structure St where
  env : Env
  out : String

/-- `Interpreter::eval_expr` (`src/runtime/interpreter.rs` lines 57-72).  The
environment is threaded exactly as the mutable borrow in the source is. -/
def evalExpr : Expr → Env → Res Value × Env
  | .IntLiteral i, env => (.ok (.Int i), env)
  | .StringLiteral s, env => (.ok (.Str s), env)
  | .Identifier name, env =>
    match env name with
    | some (v, _) => (.ok v, env)
    | none => (.err (.UndefinedIdentifier name), env)
  | .Binary l op r, env =>
    match evalExpr l env with
    | (.ok lv, env1) =>
      match evalExpr r env1 with
      | (.ok rv, env2) => (applyBinaryOp lv op rv, env2)
      | (e, env2) => (e, env2)
    | (e, env1) => (e, env1)

/-- `Interpreter::exec_stmt` (`src/runtime/interpreter.rs` lines 36-55). -/
def execStmt : Stmt → St → Res Unit × St
  | .VarDeclaration c n v, st =>
    match evalExpr v st.env with
    | (.ok val, env1) =>
      match defineVar env1 n val c with
      | .ok env2 => (.ok (), { st with env := env2 })
      | .error e => (.err e, { st with env := env1 })
    | (.err e, env1) => (.err e, { st with env := env1 })
    | (.trap, env1) => (.trap, { st with env := env1 })
  | .Print nl e, st =>
    match evalExpr e st.env with
    | (.ok v, env1) =>
      (.ok (), { env := env1, out := st.out ++ toStringValue v ++ (if nl then "\n" else "") })
    | (.err m, env1) => (.err m, { st with env := env1 })
    | (.trap, env1) => (.trap, { st with env := env1 })

/-- `Interpreter::run` (`src/runtime/interpreter.rs` lines 29-34). -/
def run : List Stmt → St → Res Unit × St
  | [], st => (.ok (), st)
  | s :: r, st =>
    match execStmt s st with
    | (.ok _, st1) => run r st1
    | (e, st1) => (e, st1)

/-- Match a scanned word against the keyword set, case-sensitively. -/
def keywordOrIdent (w : String) : TokenKind :=
  if w = "let" then .Keyword .Let
  else if w = "const" then .Keyword .Const
  else if w = "print" then .Keyword .Print
  else if w = "println" then .Keyword .Println
  else .Identifier w

/-- Modelled from the spec: the wired-in tokenizer (`crate::lexer::lexer`,
whose source file is not present in the repository snapshot; only a dead
draft lexer is).  Per spec section 4.1: a single left-to-right scan;
whitespace is skipped, with newlines advancing the line counter and resetting
the column; the symbols, the double quote (a symbol per the spec's data
model, consumed specially by the parser) and the five single-character
operators each emit one token; an alphabetic character starts a maximal
alphanumeric run matched against the keyword set; every other character
(digits included) is consumed and discarded without emitting a token.  The
fuel bounds the recursion; every step consumes at least one character, so the
fuel supplied by `tokenize` makes exhaustion unreachable. -/
def tokenizeAux : Nat → List Char → Nat → Nat → List Token
  | 0, _, _, _ => []
  | fuel + 1, cs, line, col =>
    match cs with
    | [] => []
    | c :: rest =>
      if c = '\n' then tokenizeAux fuel rest (line + 1) 1
      else if c.isWhitespace then tokenizeAux fuel rest line (col + 1)
      else if c = ';' then
        ⟨.Symbol .SemiColon, line, col⟩ :: tokenizeAux fuel rest line (col + 1)
      else if c = '(' then
        ⟨.Symbol .LParen, line, col⟩ :: tokenizeAux fuel rest line (col + 1)
      else if c = ')' then
        ⟨.Symbol .RParen, line, col⟩ :: tokenizeAux fuel rest line (col + 1)
      else if c = '"' then
        ⟨.Symbol .DblQuote, line, col⟩ :: tokenizeAux fuel rest line (col + 1)
      else if c = '=' then
        ⟨.Operator .Assignment, line, col⟩ :: tokenizeAux fuel rest line (col + 1)
      else if c = '+' then
        ⟨.Operator .Plus, line, col⟩ :: tokenizeAux fuel rest line (col + 1)
      else if c = '-' then
        ⟨.Operator .Minus, line, col⟩ :: tokenizeAux fuel rest line (col + 1)
      else if c = '*' then
        ⟨.Operator .Multiply, line, col⟩ :: tokenizeAux fuel rest line (col + 1)
      else if c = '/' then
        ⟨.Operator .Division, line, col⟩ :: tokenizeAux fuel rest line (col + 1)
      else if c.isAlpha then
        let w := String.mk (c :: rest.takeWhile Char.isAlphanum)
        ⟨keywordOrIdent w, line, col⟩ ::
          tokenizeAux fuel (rest.dropWhile Char.isAlphanum) line (col + w.length)
      else tokenizeAux fuel rest line (col + 1)

/-- Modelled from the spec: `tokenize(source)`, total over its input. -/
def tokenize (src : String) : List Token :=
  tokenizeAux (src.toList.length + 1) src.toList 1 1

/-- The message-carrying fatal parse errors, one per `Parser` abort site in
`src/backend/parser/parser.rs`. -/
inductive ParseFatal where
  | unexpectedStatement (line : Nat)
  | expectedIdentifier
  | expectedEquals
  | expectedSemicolon
  | expectedLParen
  | expectedRParen
  | unclosedString
  | unexpectedTokenInExpr (kind : TokenKind)
deriving DecidableEq

/-- How a parse can abort: by the unconditional `tokens[pos]` index in
`Parser::current` going out of bounds, by one of the parser's own
message-carrying fatal errors, or by fuel exhaustion (an artefact of the
embedding; the supplied fuel makes it unreachable). -/
inductive PErr where
  | indexOutOfBounds
  | fatal (f : ParseFatal)
  | outOfFuel
deriving DecidableEq

/-- `Parser::current` (`src/backend/parser/parser.rs` lines 31-33): an
unconditional index into the token vector, out of bounds when `pos` is past
the end. -/
def currentTok (ts : List Token) (pos : Nat) : Except PErr Token :=
  if h : pos < ts.length then .ok ts[pos] else .error .indexOutOfBounds

/-- `Parser::advance` (lines 35-39): step the cursor unless at the end. -/
def advanceTok (ts : List Token) (pos : Nat) : Nat :=
  if pos < ts.length then pos + 1 else pos

/-- The string-reconstruction loop inside `Parser::parse_primary` (lines
204-217): concatenate identifier-shaped tokens until a non-identifier is
seen, then require the closing double quote. -/
def parseStringBody (ts : List Token) : Nat → Nat → String → Except PErr (String × Nat)
  | 0, _, _ => .error .outOfFuel
  | fuel + 1, pos, acc =>
    match currentTok ts pos with
    | .error e => .error e
    | .ok tok =>
      match tok.kind with
      | .Identifier ch => parseStringBody ts fuel (advanceTok ts pos) (acc ++ ch)
      | .Symbol .DblQuote => .ok (acc, advanceTok ts pos)
      | _ => .error (.fatal .unclosedString)

/-- `Parser::parse_primary` (lines 194-224): an identifier, or a
double-quote-delimited string; anything else is a fatal error. -/
def parsePrimary (ts : List Token) (pos : Nat) : Except PErr (Expr × Nat) :=
  match currentTok ts pos with
  | .error e => .error e
  | .ok tok =>
    match tok.kind with
    | .Identifier name => .ok (.Identifier name, advanceTok ts pos)
    | .Symbol .DblQuote =>
      match parseStringBody ts (ts.length + 1) (advanceTok ts pos) "" with
      | .error e => .error e
      | .ok (s, pos1) => .ok (.StringLiteral s, pos1)
    | k => .error (.fatal (.unexpectedTokenInExpr k))

/-- The multiplicative loop of `Parser::parse_factor` (lines 170-189). -/
def parseFactorLoop (ts : List Token) : Nat → Expr → Nat → Except PErr (Expr × Nat)
  | 0, _, _ => .error .outOfFuel
  | fuel + 1, acc, pos =>
    match currentTok ts pos with
    | .error e => .error e
    | .ok tok =>
      match tok.kind with
      | .Operator .Multiply =>
        match parsePrimary ts (advanceTok ts pos) with
        | .error e => .error e
        | .ok (right, pos1) => parseFactorLoop ts fuel (.Binary acc .Multiply right) pos1
      | .Operator .Division =>
        match parsePrimary ts (advanceTok ts pos) with
        | .error e => .error e
        | .ok (right, pos1) => parseFactorLoop ts fuel (.Binary acc .Division right) pos1
      | _ => .ok (acc, pos)

/-- `Parser::parse_factor` (lines 167-192). -/
def parseFactor (ts : List Token) (pos : Nat) : Except PErr (Expr × Nat) :=
  match parsePrimary ts pos with
  | .error e => .error e
  | .ok (e, pos1) => parseFactorLoop ts (ts.length + 1) e pos1

/-- The additive loop of `Parser::parse_term` (lines 143-162). -/
def parseTermLoop (ts : List Token) : Nat → Expr → Nat → Except PErr (Expr × Nat)
  | 0, _, _ => .error .outOfFuel
  | fuel + 1, acc, pos =>
    match currentTok ts pos with
    | .error e => .error e
    | .ok tok =>
      match tok.kind with
      | .Operator .Plus =>
        match parseFactor ts (advanceTok ts pos) with
        | .error e => .error e
        | .ok (right, pos1) => parseTermLoop ts fuel (.Binary acc .Plus right) pos1
      | .Operator .Minus =>
        match parseFactor ts (advanceTok ts pos) with
        | .error e => .error e
        | .ok (right, pos1) => parseTermLoop ts fuel (.Binary acc .Minus right) pos1
      | _ => .ok (acc, pos)

/-- `Parser::parse_term` (lines 140-165). -/
def parseTerm (ts : List Token) (pos : Nat) : Except PErr (Expr × Nat) :=
  match parseFactor ts pos with
  | .error e => .error e
  | .ok (e, pos1) => parseTermLoop ts (ts.length + 1) e pos1

/-- `Parser::parse_expression` (lines 136-138). -/
def parseExpression (ts : List Token) (pos : Nat) : Except PErr (Expr × Nat) :=
  parseTerm ts pos

/-- `Parser::parse_var_decl` (lines 74-105): keyword, identifier, `=`,
expression, then a mandatory `;`. -/
def parseVarDecl (ts : List Token) (constant : Bool) (pos : Nat) :
    Except PErr (Stmt × Nat) :=
  let pos1 := advanceTok ts pos
  match currentTok ts pos1 with
  | .error e => .error e
  | .ok tok =>
    match tok.kind with
    | .Identifier name =>
      let pos2 := advanceTok ts pos1
      match currentTok ts pos2 with
      | .error e => .error e
      | .ok tok2 =>
        match tok2.kind with
        | .Operator .Assignment =>
          match parseExpression ts (advanceTok ts pos2) with
          | .error e => .error e
          | .ok (expr, pos3) =>
            match currentTok ts pos3 with
            | .error e => .error e
            | .ok tok3 =>
              match tok3.kind with
              | .Symbol .SemiColon =>
                .ok (.VarDeclaration constant name expr, advanceTok ts pos3)
              | _ => .error (.fatal .expectedSemicolon)
        | _ => .error (.fatal .expectedEquals)
    | _ => .error (.fatal .expectedIdentifier)

/-- `Parser::parse_print` (lines 107-130): keyword, `(`, expression, `)`,
then an optional `;` (checked through the unconditional `current()`). -/
def parsePrint (ts : List Token) (newline : Bool) (pos : Nat) :
    Except PErr (Stmt × Nat) :=
  let pos1 := advanceTok ts pos
  match currentTok ts pos1 with
  | .error e => .error e
  | .ok tok =>
    match tok.kind with
    | .Symbol .LParen =>
      match parseExpression ts (advanceTok ts pos1) with
      | .error e => .error e
      | .ok (expr, pos2) =>
        match currentTok ts pos2 with
        | .error e => .error e
        | .ok tok2 =>
          match tok2.kind with
          | .Symbol .RParen =>
            let pos3 := advanceTok ts pos2
            match currentTok ts pos3 with
            | .error e => .error e
            | .ok tok3 =>
              match tok3.kind with
              | .Symbol .SemiColon => .ok (.Print newline expr, advanceTok ts pos3)
              | _ => .ok (.Print newline expr, pos3)
          | _ => .error (.fatal .expectedRParen)
    | _ => .error (.fatal .expectedLParen)

/-- `Parser::parse_statement` (lines 64-72): dispatch on the current token's
keyword; any other leading token is a fatal error naming its line. -/
def parseStatement (ts : List Token) (pos : Nat) : Except PErr (Stmt × Nat) :=
  match currentTok ts pos with
  | .error e => .error e
  | .ok tok =>
    match tok.kind with
    | .Keyword .Let => parseVarDecl ts false pos
    | .Keyword .Const => parseVarDecl ts true pos
    | .Keyword .Print => parsePrint ts false pos
    | .Keyword .Println => parsePrint ts true pos
    | _ => .error (.fatal (.unexpectedStatement tok.line))

/-- The statement loop of `Parser::parse` (lines 17-25). -/
def parseProgram (ts : List Token) : Nat → Nat → List Stmt → Except PErr (List Stmt)
  | 0, _, _ => .error .outOfFuel
  | fuel + 1, pos, acc =>
    if pos < ts.length then
      match parseStatement ts pos with
      | .error e => .error e
      | .ok (s, pos1) => parseProgram ts fuel pos1 (acc ++ [s])
    else .ok acc

/-- `Parser::parse` on a token vector, starting from position 0.  Every loop
iteration consumes at least one token, so `ts.length + 1` fuel suffices. -/
def parseTokens (ts : List Token) : Except PErr (List Stmt) :=
  parseProgram ts (ts.length + 1) 0 []

/-- The whole pipeline of `src/main.rs`: tokenize, parse, then interpret from
an empty environment, collecting standard output.  A parse abort never
reaches the interpreter. -/
def runProgram (src : String) : Except PErr (Res Unit × String) :=
  match parseTokens (tokenize src) with
  | .error e => .error e
  | .ok stmts =>
    let r := run stmts ⟨emptyEnv, ""⟩
    .ok (r.1, r.2.out)

/-- C1: the pipeline on `let x = 3; let y = 4; println(x + y);` does not
print `7`; it aborts during parsing.  The tokenizer discards the digit
characters, so the parser reaches the `;` of `let x = 3;` in expression
position, where `parse_primary` (which accepts only identifiers and quoted
strings) raises its fatal unexpected-token error.  No statement is ever
interpreted and nothing is written to standard output. -/
theorem c1_pipeline_aborts_at_parse :
    runProgram "let x = 3; let y = 4; println(x + y);" =
      .error (.fatal (.unexpectedTokenInExpr (.Symbol .SemiColon))) := by
  rfl

/-- C2 counterexample: the claim asserts that `/` with any nonzero right
operand returns `Int(a / b)`, but at a = i64::MIN, b = -1 the source's `i64`
division trips its unconditional overflow check and aborts instead of
returning a value. -/
theorem c2_division_claim_counterexample :
    (-1 : Int) ≠ 0 ∧
    applyBinaryOp (.Int i64Min) .Division (.Int (-1)) = .trap ∧
    applyBinaryOp (.Int i64Min) .Division (.Int (-1)) ≠
      .ok (.Int (Int.tdiv i64Min (-1))) := by
  refine ⟨by decide, rfl, by decide⟩

/-- C2 (amended): `/` on Int operands with b nonzero and (a, b) distinct from
(i64::MIN, -1) returns the quotient truncated toward zero; (i64::MIN, -1)
aborts on the division overflow check; b = 0 is the DivisionByZero error; and
any operand pair with a non-Int side is the `/` type error. -/
theorem c2_division_semantics :
    (∀ a b : Int, b ≠ 0 → ¬(a = i64Min ∧ b = -1) →
      applyBinaryOp (.Int a) .Division (.Int b) = .ok (.Int (a.tdiv b))) ∧
    (∀ a : Int, applyBinaryOp (.Int a) .Division (.Int 0) = .err .DivisionByZero) ∧
    (applyBinaryOp (.Int i64Min) .Division (.Int (-1)) = .trap) ∧
    (∀ u v : Value, ((∀ x : Int, u ≠ .Int x) ∨ (∀ y : Int, v ≠ .Int y)) →
      applyBinaryOp u .Division v = .err (.TypeMismatch .Division)) := by
  refine ⟨?_, ?_, rfl, ?_⟩
  · intro a b hb hmin
    simp [applyBinaryOp, hb, hmin]
  · intro a
    simp [applyBinaryOp]
  · intro u v h
    cases u with
    | Int a =>
      cases v with
      | Int b =>
        rcases h with h | h
        · exact absurd rfl (h a)
        · exact absurd rfl (h b)
      | Str s => rfl
      | Bool b => rfl
    | Str s => cases v <;> rfl
    | Bool b => cases v <;> rfl

/-- C2 witness: 7 / 2 truncates to 3, and a Str operand is the type error. -/
theorem c2_division_semantics_witness :
    applyBinaryOp (.Int 7) .Division (.Int 2) = .ok (.Int 3) ∧
    applyBinaryOp (.Str "s") .Division (.Int 2) = .err (.TypeMismatch .Division) := by
  constructor
  · have h := c2_division_semantics.1 7 2 (by decide) (by decide)
    have ht : Int.tdiv 7 2 = 3 := by decide
    rw [ht] at h
    exact h
  · exact c2_division_semantics.2.2.2 (.Str "s") (.Int 2)
      (Or.inl (fun x h => by cases h))

/-- C3: `+` is total over values: Int+Int is an Int (the wrapped sum),
Str+Str is plain concatenation, and every other combination stringifies both
operands with `to_string_value` and concatenates; in particular Int plus Str
prepends or appends the decimal rendering of the integer. -/
theorem c3_plus_total :
    (∀ a b : Value, ∃ v, applyBinaryOp a .Plus b = .ok v) ∧
    (∀ x y : Int, applyBinaryOp (.Int x) .Plus (.Int y) = .ok (.Int (wrap64 (x + y)))) ∧
    (∀ s t : String, applyBinaryOp (.Str s) .Plus (.Str t) = .ok (.Str (s ++ t))) ∧
    (∀ a b : Value,
      ((∃ x, a = Value.Int x) ∧ (∃ y, b = Value.Int y)) ∨
      ((∃ s, a = Value.Str s) ∧ (∃ t, b = Value.Str t)) ∨
      applyBinaryOp a .Plus b = .ok (.Str (toStringValue a ++ toStringValue b))) ∧
    (∀ (x : Int) (s : String),
      applyBinaryOp (.Int x) .Plus (.Str s) = .ok (.Str (toString x ++ s)) ∧
      applyBinaryOp (.Str s) .Plus (.Int x) = .ok (.Str (s ++ toString x))) := by
  refine ⟨?_, fun x y => rfl, fun s t => rfl, ?_, fun x s => ⟨rfl, rfl⟩⟩
  · intro a b
    cases a <;> cases b <;> exact ⟨_, rfl⟩
  · intro a b
    cases a <;> cases b <;>
      first
        | exact Or.inl ⟨⟨_, rfl⟩, ⟨_, rfl⟩⟩
        | exact Or.inr (Or.inl ⟨⟨_, rfl⟩, ⟨_, rfl⟩⟩)
        | exact Or.inr (Or.inr rfl)

/-- C4: Int+Int always succeeds and yields the two's-complement wrapping sum:
the result is in the `i64` range and congruent to the exact sum modulo 2^64;
in particular i64::MAX + 1 wraps to i64::MIN. -/
theorem c4_plus_wrapping :
    (∀ a b : Int, applyBinaryOp (.Int a) .Plus (.Int b) = .ok (.Int (wrap64 (a + b)))) ∧
    (∀ a b : Int, i64Min ≤ wrap64 (a + b) ∧ wrap64 (a + b) < 2 ^ 63 ∧
      (a + b - wrap64 (a + b)) % 2 ^ 64 = 0) ∧
    applyBinaryOp (.Int (2 ^ 63 - 1)) .Plus (.Int 1) = .ok (.Int i64Min) := by
  refine ⟨fun a b => rfl, ?_, by decide⟩
  intro a b
  have h1 : 0 ≤ (a + b + 2 ^ 63) % 2 ^ 64 := Int.emod_nonneg _ (by positivity)
  have h2 : (a + b + 2 ^ 63) % 2 ^ 64 < 2 ^ 64 := Int.emod_lt_of_pos _ (by positivity)
  refine ⟨?_, ?_, ?_⟩
  · simp only [wrap64, i64Min]
    linarith
  · simp only [wrap64]
    have h3 : (2 : Int) ^ 64 - 2 ^ 63 = 2 ^ 63 := by norm_num
    linarith
  · have hd : a + b - wrap64 (a + b) = 2 ^ 64 * ((a + b + 2 ^ 63) / 2 ^ 64) := by
      simp only [wrap64]
      rw [Int.emod_def]
      ring
    rw [hd, Int.mul_emod_right]

/-- C5: `Environment::define` fails with AlreadyConstant exactly when the
name is already bound const; otherwise it succeeds, binds the name to the new
value with the new constancy flag, and leaves every other name untouched. -/
theorem c5_define_spec (env : Env) (name : String) (value : Value) (c : Bool) :
    ((∃ w, env name = some (w, true)) →
      defineVar env name value c = .error (.AlreadyConstant name)) ∧
    ((∀ w, env name ≠ some (w, true)) →
      ∃ env', defineVar env name value c = .ok env' ∧
        env' name = some (value, c) ∧ ∀ m, m ≠ name → env' m = env m) := by
  constructor
  · rintro ⟨w, hw⟩
    simp [defineVar, hw]
  · intro h
    cases hv : env name with
    | none =>
      refine ⟨updateEnv env name (value, c), ?_, ?_, ?_⟩
      · simp [defineVar, hv]
      · simp [updateEnv]
      · intro m hm
        simp [updateEnv, hm]
    | some p =>
      rcases p with ⟨w, flag⟩
      cases flag with
      | true => exact absurd hv (h w)
      | false =>
        refine ⟨updateEnv env name (value, c), ?_, ?_, ?_⟩
        · simp [defineVar, hv]
        · simp [updateEnv]
        · intro m hm
          simp [updateEnv, hm]

/-- C5 witness: redefining a const name fails; defining a fresh name binds
it with the requested flag. -/
theorem c5_define_spec_witness :
    defineVar (updateEnv emptyEnv "k" (.Int 1, true)) "k" (.Int 2) false =
      .error (.AlreadyConstant "k") ∧
    ∃ env', defineVar emptyEnv "k" (.Int 2) false = .ok env' ∧
      env' "k" = some (.Int 2, false) ∧ ∀ m, m ≠ "k" → env' m = emptyEnv m := by
  constructor
  · exact (c5_define_spec (updateEnv emptyEnv "k" (.Int 1, true)) "k" (.Int 2) false).1
      ⟨.Int 1, by decide⟩
  · exact (c5_define_spec emptyEnv "k" (.Int 2) false).2 (by simp [emptyEnv])

/-- C6: `Environment::assign` fails with Undefined for an absent name, fails
with Constant for a const name, and otherwise overwrites the value in place
preserving the (non-const) flag and every other entry. -/
theorem c6_assign_spec (env : Env) (name : String) (value : Value) :
    (env name = none → assignVar env name value = .error (.UndefinedVariable name)) ∧
    (∀ w, env name = some (w, true) →
      assignVar env name value = .error (.ConstantAssignment name)) ∧
    (∀ w, env name = some (w, false) →
      ∃ env', assignVar env name value = .ok env' ∧
        env' name = some (value, false) ∧ ∀ m, m ≠ name → env' m = env m) := by
  refine ⟨?_, ?_, ?_⟩
  · intro h
    simp [assignVar, h]
  · intro w h
    simp [assignVar, h]
  · intro w h
    refine ⟨updateEnv env name (value, false), ?_, ?_, ?_⟩
    · simp [assignVar, h]
    · simp [updateEnv]
    · intro m hm
      simp [updateEnv, hm]

/-- C6 witness: assigning an absent name, a const name, and a mutable name. -/
theorem c6_assign_spec_witness :
    assignVar emptyEnv "k" (.Int 2) = .error (.UndefinedVariable "k") ∧
    assignVar (updateEnv emptyEnv "k" (.Int 1, true)) "k" (.Int 2) =
      .error (.ConstantAssignment "k") ∧
    ∃ env', assignVar (updateEnv emptyEnv "k" (.Int 1, false)) "k" (.Int 2) = .ok env' ∧
      env' "k" = some (.Int 2, false) ∧
      ∀ m, m ≠ "k" → env' m = updateEnv emptyEnv "k" (.Int 1, false) m := by
  refine ⟨?_, ?_, ?_⟩
  · exact (c6_assign_spec emptyEnv "k" (.Int 2)).1 rfl
  · exact (c6_assign_spec (updateEnv emptyEnv "k" (.Int 1, true)) "k" (.Int 2)).2.1
      (.Int 1) (by decide)
  · exact (c6_assign_spec (updateEnv emptyEnv "k" (.Int 1, false)) "k" (.Int 2)).2.2
      (.Int 1) (by decide)

/-- C7 counterexample: the claim's dichotomy — halt with the first failing
statement's RuntimeError, or success after running all statements — misses
the arithmetic abort: the single statement printing
`i64::MIN / -1` makes `run` end in the division-overflow abort, which is
neither `.ok ()` nor `.err e` for any RuntimeError. -/
theorem c7_run_claim_counterexample :
    run [Stmt.Print false
      (.Binary (.IntLiteral i64Min) .Division (.IntLiteral (-1)))]
      ⟨emptyEnv, ""⟩ = (.trap, ⟨emptyEnv, ""⟩) := by
  rfl

/-- C7 (amended): `Interpreter::run` executes statements strictly in order —
after a succeeding prefix it continues with the remaining statements from
the resulting state — and halts at the first statement whose execution does
not succeed, propagating that statement's outcome (its RuntimeError, or the
arithmetic abort at `i64::MIN / -1`) unchanged whatever statements follow;
and the single statement `print(1/0)` fails with DivisionByZero leaving
standard output empty. -/
theorem c7_run_failfast :
    (∀ (pre : List Stmt) (s : Stmt) (post : List Stmt) (st st1 st2 : St)
        (e : RuntimeError),
      run pre st = (.ok (), st1) → execStmt s st1 = (.err e, st2) →
      run (pre ++ s :: post) st = (.err e, st2)) ∧
    (∀ (pre : List Stmt) (s : Stmt) (post : List Stmt) (st st1 st2 : St),
      run pre st = (.ok (), st1) → execStmt s st1 = (.trap, st2) →
      run (pre ++ s :: post) st = (.trap, st2)) ∧
    (∀ (l1 l2 : List Stmt) (st st1 : St),
      run l1 st = (.ok (), st1) → run (l1 ++ l2) st = run l2 st1) ∧
    (∀ env0 : Env,
      run [.Print false (.Binary (.IntLiteral 1) .Division (.IntLiteral 0))]
        ⟨env0, ""⟩ = (.err .DivisionByZero, ⟨env0, ""⟩)) := by
  have hcomp : ∀ (l1 l2 : List Stmt) (st st1 : St),
      run l1 st = (.ok (), st1) → run (l1 ++ l2) st = run l2 st1 := by
    intro l1
    induction l1 with
    | nil =>
      intro l2 st st1 h1
      have hst : st = st1 := by
        have := h1
        simp [run] at this
        exact this
      subst hst
      rfl
    | cons p pr ih =>
      intro l2 st st1 h1
      rcases hp : execStmt p st with ⟨r, stp⟩
      cases r with
      | ok a =>
        have h1' : run pr stp = (.ok (), st1) := by
          simp only [run] at h1
          rw [hp] at h1
          exact h1
        have := ih l2 stp st1 h1'
        simp only [List.cons_append, run]
        rw [hp]
        exact this
      | err e1 =>
        exfalso
        simp only [run] at h1
        rw [hp] at h1
        simp at h1
      | trap =>
        exfalso
        simp only [run] at h1
        rw [hp] at h1
        simp at h1
  refine ⟨?_, ?_, hcomp, fun env0 => rfl⟩
  · intro pre s post st st1 st2 e h1 h2
    rw [hcomp pre (s :: post) st st1 h1]
    simp [run, h2]
  · intro pre s post st st1 st2 h1 h2
    rw [hcomp pre (s :: post) st st1 h1]
    simp [run, h2]

/-- C7 witness: a succeeding print followed by `print(1/0)` halts with
DivisionByZero, a succeeding print followed by printing `i64::MIN / -1`
halts with the arithmetic abort — each ignoring a trailing statement — and a
succeeding prefix composes with the rest of the sequence. -/
theorem c7_run_failfast_witness :
    run [Stmt.Print false (.StringLiteral "hi"),
         Stmt.Print false (.Binary (.IntLiteral 1) .Division (.IntLiteral 0)),
         Stmt.Print true (.StringLiteral "later")] ⟨emptyEnv, ""⟩ =
      (.err .DivisionByZero, ⟨emptyEnv, "hi"⟩) ∧
    run [Stmt.Print false (.StringLiteral "hi"),
         Stmt.Print false (.Binary (.IntLiteral i64Min) .Division (.IntLiteral (-1))),
         Stmt.Print true (.StringLiteral "later")] ⟨emptyEnv, ""⟩ =
      (.trap, ⟨emptyEnv, "hi"⟩) ∧
    run ([Stmt.Print false (.StringLiteral "hi")] ++ [Stmt.Print true (.StringLiteral "yo")])
      ⟨emptyEnv, ""⟩ = run [Stmt.Print true (.StringLiteral "yo")] ⟨emptyEnv, "hi"⟩ := by
  refine ⟨?_, ?_, ?_⟩
  · exact c7_run_failfast.1 [Stmt.Print false (.StringLiteral "hi")]
      (Stmt.Print false (.Binary (.IntLiteral 1) .Division (.IntLiteral 0)))
      [Stmt.Print true (.StringLiteral "later")]
      ⟨emptyEnv, ""⟩ ⟨emptyEnv, "hi"⟩ ⟨emptyEnv, "hi"⟩ .DivisionByZero rfl rfl
  · exact c7_run_failfast.2.1 [Stmt.Print false (.StringLiteral "hi")]
      (Stmt.Print false (.Binary (.IntLiteral i64Min) .Division (.IntLiteral (-1))))
      [Stmt.Print true (.StringLiteral "later")]
      ⟨emptyEnv, ""⟩ ⟨emptyEnv, "hi"⟩ ⟨emptyEnv, "hi"⟩ rfl rfl
  · exact c7_run_failfast.2.2.1 [Stmt.Print false (.StringLiteral "hi")]
      [Stmt.Print true (.StringLiteral "yo")] ⟨emptyEnv, ""⟩ ⟨emptyEnv, "hi"⟩ rfl

/-- C8 counterexample: the claim says a missing `;` after a print statement's
closing parenthesis is never an error, but when the `)` ends the token
stream the optional-semicolon check still calls `current()`, whose
unconditional `tokens[pos]` index aborts out of bounds. -/
theorem c8_semicolon_claim_counterexample :
    parseTokens [⟨.Keyword .Print, 1, 1⟩, ⟨.Symbol .LParen, 1, 6⟩,
      ⟨.Identifier "x", 1, 7⟩, ⟨.Symbol .RParen, 1, 8⟩] =
      .error .indexOutOfBounds := by
  rfl

/-- C8 (amended): after a print/println statement's `)`, a `;` is consumed
when present and its absence is tolerated when further tokens follow, but
when the statement ends the input the unconditional `current()` lookup for
the optional `;` aborts out of bounds; a let/const declaration requires its
`;`, a following non-semicolon token being the fatal expected-semicolon
error; both forms otherwise parse one expression between their delimiter
tokens. -/
theorem c8_semicolon_asymmetry :
    parseTokens [⟨.Keyword .Print, 1, 1⟩, ⟨.Symbol .LParen, 1, 2⟩,
      ⟨.Identifier "x", 1, 3⟩, ⟨.Symbol .RParen, 1, 4⟩, ⟨.Symbol .SemiColon, 1, 5⟩] =
      .ok [.Print false (.Identifier "x")] ∧
    parseTokens [⟨.Keyword .Println, 1, 1⟩, ⟨.Symbol .LParen, 1, 2⟩,
      ⟨.Identifier "x", 1, 3⟩, ⟨.Symbol .RParen, 1, 4⟩, ⟨.Symbol .SemiColon, 1, 5⟩] =
      .ok [.Print true (.Identifier "x")] ∧
    parseTokens [⟨.Keyword .Print, 1, 1⟩, ⟨.Symbol .LParen, 1, 2⟩,
      ⟨.Identifier "x", 1, 3⟩, ⟨.Symbol .RParen, 1, 4⟩,
      ⟨.Keyword .Print, 2, 1⟩, ⟨.Symbol .LParen, 2, 2⟩,
      ⟨.Identifier "y", 2, 3⟩, ⟨.Symbol .RParen, 2, 4⟩, ⟨.Symbol .SemiColon, 2, 5⟩] =
      .ok [.Print false (.Identifier "x"), .Print false (.Identifier "y")] ∧
    parseTokens [⟨.Keyword .Print, 1, 1⟩, ⟨.Symbol .LParen, 1, 2⟩,
      ⟨.Identifier "x", 1, 3⟩, ⟨.Symbol .RParen, 1, 4⟩] =
      .error .indexOutOfBounds ∧
    parseTokens [⟨.Keyword .Let, 1, 1⟩, ⟨.Identifier "x", 1, 5⟩,
      ⟨.Operator .Assignment, 1, 7⟩, ⟨.Identifier "y", 1, 9⟩,
      ⟨.Symbol .SemiColon, 1, 10⟩] =
      .ok [.VarDeclaration false "x" (.Identifier "y")] ∧
    parseTokens [⟨.Keyword .Const, 1, 1⟩, ⟨.Identifier "x", 1, 7⟩,
      ⟨.Operator .Assignment, 1, 9⟩, ⟨.Identifier "y", 1, 11⟩,
      ⟨.Symbol .SemiColon, 1, 12⟩] =
      .ok [.VarDeclaration true "x" (.Identifier "y")] ∧
    parseTokens [⟨.Keyword .Let, 1, 1⟩, ⟨.Identifier "x", 1, 5⟩,
      ⟨.Operator .Assignment, 1, 7⟩, ⟨.Identifier "y", 1, 9⟩,
      ⟨.Keyword .Let, 2, 1⟩] =
      .error (.fatal .expectedSemicolon) := by
  exact ⟨rfl, rfl, rfl, rfl, rfl, rfl, rfl⟩

/-- C9: expression evaluation never modifies the environment — the threaded
environment comes back exactly as it went in, whatever the outcome — and
consequently executing a Print statement leaves the environment unchanged
(so of the two statement forms only VarDeclaration can change it). -/
theorem c9_eval_frame :
    (∀ (e : Expr) (env : Env), (evalExpr e env).2 = env) ∧
    (∀ (nl : Bool) (ex : Expr) (st : St), ((execStmt (.Print nl ex) st).2).env = st.env) := by
  have hmain : ∀ (e : Expr) (env : Env), (evalExpr e env).2 = env := by
    intro e
    induction e with
    | Identifier name =>
      intro env
      cases hv : env name with
      | none => simp [evalExpr, hv]
      | some p =>
        rcases p with ⟨v, b⟩
        simp [evalExpr, hv]
    | StringLiteral s => intro env; rfl
    | IntLiteral i => intro env; rfl
    | Binary l op r ihl ihr =>
      intro env
      simp only [evalExpr]
      rcases hev : evalExpr l env with ⟨rl, env1⟩
      have hl : env1 = env := by
        have h := ihl env
        rw [hev] at h
        exact h
      cases rl with
      | ok lv =>
        dsimp only
        rcases her : evalExpr r env1 with ⟨rr, env2⟩
        have hr : env2 = env1 := by
          have h := ihr env1
          rw [her] at h
          exact h
        cases rr with
        | ok rv => simp [hl, hr]
        | err e2 => simp [hl, hr]
        | trap => simp [hl, hr]
      | err e1 =>
        dsimp only
        exact hl
      | trap =>
        dsimp only
        exact hl
  refine ⟨hmain, ?_⟩
  intro nl ex st
  simp only [execStmt]
  rcases hev : evalExpr ex st.env with ⟨r, env1⟩
  have h : env1 = st.env := by
    have h2 := hmain ex st.env
    rw [hev] at h2
    exact h2
  cases r with
  | ok v => simp [h]
  | err m => simp [h]
  | trap => simp [h]

/-- C10: `Parser::current` indexes `tokens[pos]` unconditionally, so any
position at or past the end aborts out of bounds, and `parse` does not guard
this mid-statement: the single token `let` makes parsing abort by
out-of-bounds indexing (not by one of the message-carrying fatal errors,
`indexOutOfBounds` being distinct from every `fatal` result). -/
theorem c10_current_oob :
    (∀ (ts : List Token) (k : Nat),
      currentTok ts (ts.length + k) = .error .indexOutOfBounds) ∧
    parseTokens [⟨.Keyword .Let, 1, 1⟩] = .error .indexOutOfBounds := by
  constructor
  · intro ts k
    have h : ¬ (ts.length + k < ts.length) := by omega
    simp [currentTok, h]
  · rfl

end StupidScript
